import Mathlib

/-!
# Verification of the Talking Lands spatial feature service

Shallow embedding of the service in `src/app` (FastAPI + SQLAlchemy/PostGIS):

* `schemas.py`     — pydantic validators for point/polygon create and update
                     inputs (coordinate bounds, arity, ring closure);
* `models.py`      — `SpatialPoint` / `SpatialPolygon` rows and their
                     `to_geojson` serializers;
* `routers/points.py`, `routers/polygons.py` — the CRUD and spatial-query
                     handlers, with their transaction (commit/rollback)
                     behaviour.

Coordinates are modelled as rationals `ℚ` (Python floats: every concrete
value in the code and tests is exactly representable, and the validators use
only order comparisons).  The WKT text produced by the handlers
(`POINT(lon lat)`, `POLYGON((...))`) is modelled structurally by the `Geom`
inductive: the handler builds the WKT from the coordinate list and the store
parses it back, so the stored geometry carries exactly the coordinate list
the handler embedded in the text.  The external PostGIS store is modelled by
explicit state passing (a `Store` of rows) with an explicit session whose
`flush` may fail (parameterised store-side failure) and whose
commit/rollback semantics mirror the `try/except` blocks of the handlers.
-/

set_option autoImplicit false

namespace TalkingLands

/-- JSON values, used for the opaque `attributes` payload and for the
GeoJSON output of `to_geojson`. -/
inductive Json where
  | null
  | bool (b : Bool)
  | num (q : ℚ)
  | str (s : String)
  | arr (elems : List Json)
  | obj (fields : List (String × Json))

/-- Field lookup in a JSON object (`none` on non-objects/missing keys). -/
def Json.lookup (j : Json) (key : String) : Option Json :=
  match j with
  | .obj fields => fields.lookup key
  | _ => none

/-- A timestamp, identified with its ISO-8601 rendering (the only operation
the service ever applies to a timestamp is `.isoformat()`). -/
structure Timestamp where
  iso : String
deriving DecidableEq, Repr

/-- Stored geometry, the structural content of the WKT literal sent to the
store: `POINT(lon lat)` or `POLYGON((x1 y1, ..., xn yn))`.  A polygon ring
is kept as the list of raw coordinate pairs exactly as embedded in the WKT
(each pair is a 2-element list in every path that reaches the store, the
pydantic validators enforce the arity). -/
inductive Geom where
  | point (lon lat : ℚ)
  | polygon (ring : List (List ℚ))
deriving DecidableEq

/-! ## Geometry codec: the pydantic validators of `schemas.py` -/

/-- `-180 <= lon <= 180`, the longitude bound of every validator. -/
def lonOK (lon : ℚ) : Prop := -180 ≤ lon ∧ lon ≤ 180

/-- `-90 <= lat <= 90`, the latitude bound of every validator. -/
def latOK (lat : ℚ) : Prop := -90 ≤ lat ∧ lat ≤ 90

instance (lon : ℚ) : Decidable (lonOK lon) := by unfold lonOK; infer_instance
instance (lat : ℚ) : Decidable (latOK lat) := by unfold latOK; infer_instance

/-- `PointCreate.validate_coordinates` (schemas.py lines 19-28): requires
exactly two values, longitude in [-180, 180], latitude in [-90, 90];
returns the list unchanged on success. -/
def validate_point_coordinates (v : List ℚ) : Except String (List ℚ) :=
  match v with
  | [lon, lat] =>
    if ¬ lonOK lon then .error "Longitude must be between -180 and 180"
    else if ¬ latOK lat then .error "Latitude must be between -90 and 90"
    else .ok [lon, lat]
  | _ => .error "Coordinates must be [longitude, latitude]"

/-- The per-pair loop of `PolygonCreate.validate_coordinates`
(schemas.py lines 81-88): each coordinate must be a 2-element
`[longitude, latitude]` pair within bounds. -/
def check_polygon_pairs : List (List ℚ) → Except String Unit
  | [] => .ok ()
  | coord :: rest =>
    match coord with
    | [lon, lat] =>
      if ¬ lonOK lon then .error "Longitude must be between -180 and 180"
      else if ¬ latOK lat then .error "Latitude must be between -90 and 90"
      else check_polygon_pairs rest
    | _ => .error "Each coordinate must be [longitude, latitude]"

/-- The ring-closure normalization of `PolygonCreate.validate_coordinates`
(schemas.py lines 90-92): `if v[0] != v[-1]: v.append(v[0])`. -/
def close_ring (v : List (List ℚ)) : List (List ℚ) :=
  if v.head? = v.getLast? then v else v ++ v.take 1

/-- `PolygonCreate.validate_coordinates` (schemas.py lines 75-94): at least
3 pairs, each pair a 2-element in-bounds `[lon, lat]`; the ring is silently
closed if open. -/
def validate_polygon_coordinates (v : List (List ℚ)) :
    Except String (List (List ℚ)) :=
  if v.length < 3 then .error "Polygon must have at least 3 coordinates"
  else
    match check_polygon_pairs v with
    | .error e => .error e
    | .ok _ => .ok (close_ring v)

/-- `PointUpdate.validate_coordinates` (schemas.py lines 37-48): `None`
passes through; otherwise the same checks as on create. -/
def validate_point_update_coordinates (v : Option (List ℚ)) :
    Except String (Option (List ℚ)) :=
  match v with
  | none => .ok none
  | some v => (validate_point_coordinates v).map some

/-- `PolygonUpdate.validate_coordinates` (schemas.py lines 103-125): `None`
passes through; otherwise the same checks and ring closure as on create. -/
def validate_polygon_update_coordinates (v : Option (List (List ℚ))) :
    Except String (Option (List (List ℚ))) :=
  match v with
  | none => .ok none
  | some v => (validate_polygon_coordinates v).map some

/-! ## Data model: `models.py` -/

/-- The shared columns of `SpatialPoint` and `SpatialPolygon` (models.py):
the two tables are declared with identical columns except for the geometry
arity, which lives inside `geom`.  `id` is store-assigned; `created_at` /
`updated_at` are server defaults, hence `Option` (the `to_geojson` code
guards both with `if self.created_at else None`). -/
structure SpatialRecord where
  id : Nat
  name : String
  description : Option String
  attributes : Option Json
  geom : Geom
  created_at : Option Timestamp
  updated_at : Option Timestamp

/-- `mapping(to_shape(geom))`: the stored geometry rendered as a GeoJSON
geometry object, coordinates in the stored `[longitude, latitude]` order. -/
def decode_geom : Geom → Json
  | .point lon lat =>
    .obj [("type", .str "Point"), ("coordinates", .arr [.num lon, .num lat])]
  | .polygon ring =>
    .obj [("type", .str "Polygon"),
          ("coordinates",
           .arr [.arr (ring.map fun c => .arr (c.map Json.num))])]

/-- `x if x else None` rendering of an optional string. -/
def option_str_json : Option String → Json
  | some s => .str s
  | none => .null

/-- `SpatialPoint.to_geojson` / `SpatialPolygon.to_geojson` (models.py
lines 36-50 and 71-85, textually identical): the GeoJSON Feature for a
stored record. -/
def SpatialRecord.to_geojson (r : SpatialRecord) : Json :=
  .obj [("type", .str "Feature"),
        ("id", .num r.id),
        ("geometry", decode_geom r.geom),
        ("properties", .obj
          [("name", .str r.name),
           ("description", option_str_json r.description),
           ("attributes", (r.attributes.getD .null)),
           ("created_at", option_str_json (r.created_at.map Timestamp.iso)),
           ("updated_at", option_str_json (r.updated_at.map Timestamp.iso))])]

/-! ## Store and transaction model

The external PostGIS store holds the two tables; a `Session` is one
transaction scope: `pending` is the in-transaction view built up by
`add`/`flush`, `commit` publishes it, `rollback` discards it and keeps the
state from before the transaction.  Whether an individual INSERT is
accepted is the store's decision (constraint violation, connection
failure); it is a parameter `fail` of every inserting operation. -/

/-- Fields of a row before the store assigns its id and timestamps. -/
structure NewRecord where
  name : String
  description : Option String
  attributes : Option Json
  geom : Geom

/-- The backing store: both tables plus the id sequences. -/
structure Store where
  points : List SpatialRecord
  polygons : List SpatialRecord
  next_point_id : Nat
  next_polygon_id : Nat

/-- The row the store materialises at flush time: the new record's fields
plus the assigned id and the `func.now()` timestamps. -/
def mk_row (now : Timestamp) (id : Nat) (n : NewRecord) : SpatialRecord :=
  ⟨id, n.name, n.description, n.attributes, n.geom, some now, some now⟩

/-- One transaction scope over the store. -/
structure Session where
  committed : Store
  pending : Store

/-- Open a transaction: the in-transaction view starts at the committed
state. -/
def Session.start (st : Store) : Session := ⟨st, st⟩

/-- `await db.rollback()`: discard the transaction. -/
def Session.rollback (s : Session) : Store := s.committed

/-- `await db.commit()`: publish the transaction. -/
def Session.commit (s : Session) : Store := s.pending

/-- `db.add` + `await db.flush()` of a point row: the store either rejects
the INSERT (`fail`) or assigns the next id and the timestamps and stages
the row.  Returns the staged row (`await db.refresh`). -/
def Session.flush_point (fail : NewRecord → Bool) (now : Timestamp)
    (s : Session) (n : NewRecord) : Except String (Session × SpatialRecord) :=
  if fail n then .error "insert rejected by store"
  else
    let r : SpatialRecord := mk_row now s.pending.next_point_id n
    .ok ({ s with pending := { s.pending with
             points := s.pending.points ++ [r],
             next_point_id := s.pending.next_point_id + 1 } }, r)

/-- `db.add` + `await db.flush()` of a polygon row. -/
def Session.flush_polygon (fail : NewRecord → Bool) (now : Timestamp)
    (s : Session) (n : NewRecord) : Except String (Session × SpatialRecord) :=
  if fail n then .error "insert rejected by store"
  else
    let r : SpatialRecord := mk_row now s.pending.next_polygon_id n
    .ok ({ s with pending := { s.pending with
             polygons := s.pending.polygons ++ [r],
             next_polygon_id := s.pending.next_polygon_id + 1 } }, r)

/-! ## Input schemas (`schemas.py`) and error kinds

FastAPI parses the request body into the pydantic schema before the handler
runs; a validator failure is a 422 response and the handler (and hence the
store) is never touched.  Each endpoint below is therefore modelled as
"validate, then run the handler body". -/

/-- `PointCreate`: name, optional description/attributes, a coordinate
pair. -/
structure PointCreate where
  name : String
  description : Option String
  attributes : Option Json
  coordinates : List ℚ

/-- Run `PointCreate.validate_coordinates` on the schema object. -/
def PointCreate.validate (p : PointCreate) : Except String PointCreate :=
  (validate_point_coordinates p.coordinates).map
    fun v => { p with coordinates := v }

/-- `PolygonCreate`: name, optional description/attributes, a ring. -/
structure PolygonCreate where
  name : String
  description : Option String
  attributes : Option Json
  coordinates : List (List ℚ)

/-- Run `PolygonCreate.validate_coordinates` (with its ring closure) on the
schema object. -/
def PolygonCreate.validate (p : PolygonCreate) : Except String PolygonCreate :=
  (validate_polygon_coordinates p.coordinates).map
    fun v => { p with coordinates := v }

/-- `PointUpdate`: every field optional; `None` means "leave unchanged". -/
structure PointUpdate where
  name : Option String := none
  description : Option String := none
  attributes : Option Json := none
  coordinates : Option (List ℚ) := none

/-- Run `PointUpdate.validate_coordinates` on the schema object. -/
def PointUpdate.validate (u : PointUpdate) : Except String PointUpdate :=
  (validate_point_update_coordinates u.coordinates).map
    fun v => { u with coordinates := v }

/-- `PolygonUpdate`: every field optional; `None` means "leave unchanged". -/
structure PolygonUpdate where
  name : Option String := none
  description : Option String := none
  attributes : Option Json := none
  coordinates : Option (List (List ℚ)) := none

/-- Run `PolygonUpdate.validate_coordinates` on the schema object. -/
def PolygonUpdate.validate (u : PolygonUpdate) : Except String PolygonUpdate :=
  (validate_polygon_update_coordinates u.coordinates).map
    fun v => { u with coordinates := v }

/-- Error outcomes of an endpoint, by HTTP class: a pydantic
`ValidationError` (422), an `HTTPException(404)`, or an
`HTTPException(500)` raised from an `except` block after rollback. -/
inductive Err where
  | validation (msg : String)
  | notFound (msg : String)
  | store (msg : String)
deriving DecidableEq, Repr

/-- The per-element validation pydantic performs while parsing a batch
body (`PointBatchCreate` / `PolygonBatchCreate`): every element is
validated; the first failure rejects the whole request. -/
def validate_all {α : Type} (f : α → Except String α) :
    List α → Except String (List α)
  | [] => .ok []
  | x :: rest =>
    match f x with
    | .error e => .error e
    | .ok y =>
      match validate_all f rest with
      | .error e => .error e
      | .ok ys => .ok (y :: ys)

/-! ## Point endpoints (`routers/points.py`) -/

/-- `lon, lat = point.coordinates` followed by `POINT(lon lat)`: the
destructuring raises unless the list has exactly two values (the
validator guarantees it; a failure would be caught by the handler's
generic `except` as a 500). -/
def point_new_record (point : PointCreate) : Except String NewRecord :=
  match point.coordinates with
  | [lon, lat] =>
    .ok ⟨point.name, point.description, point.attributes, .point lon lat⟩
  | _ => .error "cannot unpack coordinates"

/-- `create_point` (points.py lines 33-61): validate, destructure
`lon, lat = point.coordinates`, build `POINT(lon lat)`, add + commit;
any exception rolls back and surfaces as a 500. -/
def create_point (fail : NewRecord → Bool) (now : Timestamp) (st : Store)
    (point : PointCreate) : Store × Except Err Json :=
  match point.validate with
  | .error e => (st, .error (.validation e))
  | .ok point =>
    match point_new_record point with
    | .error e => (st, .error (.store e))
    | .ok n =>
      match (Session.start st).flush_point fail now n with
      | .error e => (st, .error (.store e))
      | .ok (s, r) => (s.commit, .ok r.to_geojson)

/-- The `for point in points_data.points` loop of `create_points_batch`
(points.py lines 72-85): flush each row in turn inside one session; a
failure carries the session at the point of failure (for the handler's
rollback). -/
def flush_points_loop (fail : NewRecord → Bool) (now : Timestamp) :
    Session → List PointCreate →
    Except (String × Session) (Session × List Json)
  | s, [] => .ok (s, [])
  | s, point :: rest =>
    match point_new_record point with
    | .error e => .error (e, s)
    | .ok n =>
      match s.flush_point fail now n with
      | .error e => .error (e, s)
      | .ok (s', r) =>
        match flush_points_loop fail now s' rest with
        | .error es => .error es
        | .ok (s'', feats) => .ok (s'', r.to_geojson :: feats)

/-- `create_points_batch` (points.py lines 64-98): pydantic validates every
element of `PointBatchCreate` first (nothing reaches the handler on a bad
element); then all rows are flushed in one session and committed at the
end; any exception rolls the whole session back and surfaces as a 500. -/
def create_points_batch (fail : NewRecord → Bool) (now : Timestamp)
    (st : Store) (points : List PointCreate) :
    Store × Except Err (List Json) :=
  match validate_all PointCreate.validate points with
  | .error e => (st, .error (.validation e))
  | .ok pts =>
    match flush_points_loop fail now (Session.start st) pts with
    | .error (e, s) => (s.rollback, .error (.store e))
    | .ok (s, feats) => (s.commit, .ok feats)

/-- `SELECT ... WHERE SpatialPoint.id == point_id ... scalar_one_or_none`. -/
def find_point (st : Store) (point_id : Nat) : Option SpatialRecord :=
  st.points.find? (fun r => r.id == point_id)

/-- `get_point` (points.py lines 135-155): 404 when the id does not
resolve, otherwise the row's GeoJSON feature.  Read-only. -/
def get_point (st : Store) (point_id : Nat) : Except Err Json :=
  match find_point st point_id with
  | none => .error (.notFound "Point not found")
  | some p => .ok p.to_geojson

/-- `if point_update.coordinates:` followed by
`lon, lat = point_update.coordinates` (points.py lines 179-182): `None`
(and the empty list, falsy in Python) leaves the geometry alone; a
non-empty list is destructured into exactly two values (the validator
guarantees the arity) and re-encoded as `POINT(lon lat)`. -/
def point_update_geom (c : Option (List ℚ)) (g : Geom) : Geom :=
  match c with
  | some [lon, lat] => .point lon lat
  | _ => g

/-- The field-by-field PATCH assignments of `update_point` (points.py lines
170-182) as one record update: each `is not None` field overwrites, absent
fields keep the stored value (`Option.or`), the geometry is re-encoded when
coordinates are supplied, and `updated_at` is refreshed by the column's
`onupdate=func.now()`. -/
def apply_point_update (now : Timestamp) (u : PointUpdate)
    (r : SpatialRecord) : SpatialRecord :=
  { r with
    name := u.name.getD r.name,
    description := u.description.or r.description,
    attributes := u.attributes.or r.attributes,
    geom := point_update_geom u.coordinates r.geom,
    updated_at := some now }

/-- `update_point` (points.py lines 158-198): validate the PATCH body,
404 if the id does not resolve, otherwise apply the supplied fields and
commit. -/
def update_point (now : Timestamp) (st : Store) (point_id : Nat)
    (point_update : PointUpdate) : Store × Except Err Json :=
  match point_update.validate with
  | .error e => (st, .error (.validation e))
  | .ok u =>
    match find_point st point_id with
    | none => (st, .error (.notFound "Point not found"))
    | some r =>
      let r' := apply_point_update now u r
      ({ st with points :=
          st.points.map fun x => if x.id == point_id then r' else x },
       .ok r'.to_geojson)

/-- `delete_point` (points.py lines 201-231): 404 if the id does not
resolve, otherwise remove the row and commit. -/
def delete_point (st : Store) (point_id : Nat) : Store × Except Err Unit :=
  match find_point st point_id with
  | none => (st, .error (.notFound "Point not found"))
  | some _ =>
    ({ st with points := st.points.filter fun r => r.id != point_id },
     .ok ())

/-! ## Polygon endpoints (`routers/polygons.py`) -/

/-- The WKT ring construction
`[f"{lon} {lat}" for lon, lat in coordinates]` (polygons.py): destructuring
each pair raises unless it has exactly two values (caught by the
handler's generic `except`); on success the WKT embeds exactly the pairs. -/
def polygon_wkt_ring : List (List ℚ) → Except String (List (List ℚ))
  | [] => .ok []
  | [lon, lat] :: rest =>
    (polygon_wkt_ring rest).map fun t => [lon, lat] :: t
  | _ => .error "cannot unpack coordinate pair"

/-- Build the new polygon row fields from a (validated) create input:
the WKT ring plus the attribute fields. -/
def polygon_new_record (polygon : PolygonCreate) : Except String NewRecord :=
  (polygon_wkt_ring polygon.coordinates).map fun ring =>
    ⟨polygon.name, polygon.description, polygon.attributes, .polygon ring⟩

/-- `create_polygon` (polygons.py lines 16-47): validate (closing the
ring), build `POLYGON((...))`, add + commit; any exception rolls back and
surfaces as a 500. -/
def create_polygon (fail : NewRecord → Bool) (now : Timestamp) (st : Store)
    (polygon : PolygonCreate) : Store × Except Err Json :=
  match polygon.validate with
  | .error e => (st, .error (.validation e))
  | .ok polygon =>
    match polygon_new_record polygon with
    | .error e => (st, .error (.store e))
    | .ok n =>
      match (Session.start st).flush_polygon fail now n with
      | .error e => (st, .error (.store e))
      | .ok (s, r) => (s.commit, .ok r.to_geojson)

/-- The `for polygon in polygons_data.polygons` loop of
`create_polygons_batch` (polygons.py lines 58-72). -/
def flush_polygons_loop (fail : NewRecord → Bool) (now : Timestamp) :
    Session → List PolygonCreate →
    Except (String × Session) (Session × List Json)
  | s, [] => .ok (s, [])
  | s, polygon :: rest =>
    match polygon_new_record polygon with
    | .error e => .error (e, s)
    | .ok n =>
      match s.flush_polygon fail now n with
      | .error e => .error (e, s)
      | .ok (s', r) =>
        match flush_polygons_loop fail now s' rest with
        | .error es => .error es
        | .ok (s'', feats) => .ok (s'', r.to_geojson :: feats)

/-- `create_polygons_batch` (polygons.py lines 50-85): validate every
element, flush all rows in one session, commit at the end; any exception
rolls the whole session back and surfaces as a 500. -/
def create_polygons_batch (fail : NewRecord → Bool) (now : Timestamp)
    (st : Store) (polygons : List PolygonCreate) :
    Store × Except Err (List Json) :=
  match validate_all PolygonCreate.validate polygons with
  | .error e => (st, .error (.validation e))
  | .ok ps =>
    match flush_polygons_loop fail now (Session.start st) ps with
    | .error (e, s) => (s.rollback, .error (.store e))
    | .ok (s, feats) => (s.commit, .ok feats)

/-- `SELECT ... WHERE SpatialPolygon.id == polygon_id ... first()`. -/
def find_polygon (st : Store) (polygon_id : Nat) : Option SpatialRecord :=
  st.polygons.find? (fun r => r.id == polygon_id)

/-- `get_polygon` (polygons.py lines 120-142). -/
def get_polygon (st : Store) (polygon_id : Nat) : Except Err Json :=
  match find_polygon st polygon_id with
  | none => .error (.notFound "Polygon not found")
  | some p => .ok p.to_geojson

/-- `if polygon_update.coordinates:` followed by the WKT ring
construction (polygons.py lines 172-175): `None` (and the empty list,
falsy in Python) leaves the geometry alone; a non-empty list is re-encoded
as a `POLYGON` ring. -/
def polygon_update_geom (c : Option (List (List ℚ))) (g : Geom) :
    Except String Geom :=
  match c with
  | some (x :: xs) => (polygon_wkt_ring (x :: xs)).map Geom.polygon
  | _ => .ok g

/-- The field-by-field PATCH assignments of `update_polygon` (polygons.py
lines 163-175), same semantics as for points, with the ring re-encoded via
the WKT construction when coordinates are supplied. -/
def apply_polygon_update (now : Timestamp) (u : PolygonUpdate)
    (r : SpatialRecord) : Except String SpatialRecord :=
  (polygon_update_geom u.coordinates r.geom).map fun g =>
    { r with
      name := u.name.getD r.name,
      description := u.description.or r.description,
      attributes := u.attributes.or r.attributes,
      geom := g,
      updated_at := some now }

/-- `update_polygon` (polygons.py lines 145-190). -/
def update_polygon (now : Timestamp) (st : Store) (polygon_id : Nat)
    (polygon_update : PolygonUpdate) : Store × Except Err Json :=
  match polygon_update.validate with
  | .error e => (st, .error (.validation e))
  | .ok u =>
    match find_polygon st polygon_id with
    | none => (st, .error (.notFound "Polygon not found"))
    | some r =>
      match apply_polygon_update now u r with
      | .error e => (st, .error (.store e))
      | .ok r' =>
        ({ st with polygons :=
            st.polygons.map fun x => if x.id == polygon_id then r' else x },
         .ok r'.to_geojson)

/-- `delete_polygon` (polygons.py lines 193-216). -/
def delete_polygon (st : Store) (polygon_id : Nat) : Store × Except Err Unit :=
  match find_polygon st polygon_id with
  | none => (st, .error (.notFound "Polygon not found"))
  | some _ =>
    ({ st with polygons := st.polygons.filter fun r => r.id != polygon_id },
     .ok ())

/-- `find_polygons_containing_point` (polygons.py lines 300-331): the raw
query floats are formatted straight into `POINT(lon lat)` — no bounds
validation of any kind — and the store is queried with
`ST_Contains(polygon.geom, point)`.  The store's `ST_Contains` predicate
is external and is a parameter.  Read-only. -/
def find_polygons_containing_point (st_contains : Geom → Geom → Bool)
    (st : Store) (lon lat : ℚ) : Except Err (List Json) :=
  let point_geom : Geom := .point lon lat
  .ok ((st.polygons.filter fun p => st_contains p.geom point_geom).map
        SpatialRecord.to_geojson)

/-! ## The routes the points router actually declares (`routers/points.py`)

Transcribed from the `@router.*` decorators under
`APIRouter(prefix="/api/points")`, in source order. -/

/-- Every route of the points router: HTTP method and path. -/
def points_router_routes : List (String × String) :=
  [("POST", "/api/points/"),
   ("POST", "/api/points/batch"),
   ("GET", "/api/points/"),
   ("GET", "/api/points/{point_id}"),
   ("PUT", "/api/points/{point_id}"),
   ("DELETE", "/api/points/{point_id}")]

/-- The geoalchemy2 functions imported at the top of `routers/points.py`
(lines 8-14). -/
def points_router_imported_functions : List String :=
  ["ST_AsGeoJSON", "ST_GeomFromText", "ST_SetSRID", "ST_MakePoint",
   "ST_DWithin"]

/-! ## Derived predicates and fixtures used by the theorems -/

/-- A coordinate pair as the polygon validator accepts it: exactly two
values, longitude and latitude in bounds. -/
def pair_ok (c : List ℚ) : Bool :=
  match c with
  | [lon, lat] => decide (lonOK lon) && decide (latOK lat)
  | _ => false

/-- The rows a successful point batch create appends: one per input, ids
consecutive from `startId`, fields taken from the input.  (The catch-all
branch is unreachable once the inputs have passed validation.) -/
def point_batch_rows (now : Timestamp) (startId : Nat) :
    List PointCreate → List SpatialRecord
  | [] => []
  | p :: rest =>
    match point_new_record p with
    | .ok n => mk_row now startId n :: point_batch_rows now (startId + 1) rest
    | .error _ => []

/-- The rows a successful polygon batch create appends. -/
def polygon_batch_rows (now : Timestamp) (startId : Nat) :
    List PolygonCreate → List SpatialRecord
  | [] => []
  | p :: rest =>
    match polygon_new_record p with
    | .ok n => mk_row now startId n :: polygon_batch_rows now (startId + 1) rest
    | .error _ => []

/-- A well-formed stored polygon ring: at least 3 pairs, closed (first pair
equals last pair), every pair a 2-element in-bounds `[lon, lat]`. -/
def ring_ok (ring : List (List ℚ)) : Prop :=
  3 ≤ ring.length ∧ ring.head? = ring.getLast? ∧ ring.all pair_ok = true

/-- Every polygon row of the store carries a well-formed closed ring. -/
def polygons_ok (st : Store) : Prop :=
  ∀ r ∈ st.polygons, ∀ ring, r.geom = .polygon ring → ring_ok ring

/-- A fixed timestamp for concrete witnesses. -/
def ts0 : Timestamp := ⟨"2025-04-20T19:47:00"⟩

/-- A store with both tables empty, id sequences at 1. -/
def empty_store : Store := ⟨[], [], 1, 1⟩

/-- A store whose every INSERT succeeds. -/
def no_fail : NewRecord → Bool := fun _ => false

/-- A store that rejects the INSERT of any row named "bad" (a stand-in for
a constraint violation on one row of a batch). -/
def fail_bad_name : NewRecord → Bool := fun n => n.name == "bad"

/-- A concrete stored polygon (the 10×10 square fixture of the tests). -/
def sample_polygon_row : SpatialRecord :=
  ⟨1, "square", none, none,
   .polygon [[0,0],[0,10],[10,10],[10,0],[0,0]], some ts0, some ts0⟩

/-- A store holding just the square polygon. -/
def sample_store : Store := ⟨[], [sample_polygon_row], 1, 2⟩

/-- A concrete stored point. -/
def sample_point_row : SpatialRecord :=
  ⟨1, "p1", none, none, .point 5 5, some ts0, some ts0⟩

/-- A store holding just the sample point. -/
def sample_point_store : Store := ⟨[sample_point_row], [], 2, 1⟩

/-! ## Helper lemmas: validators and ring closure -/

theorem validate_point_coordinates_ok {v w : List ℚ}
    (h : validate_point_coordinates v = .ok w) :
    w = v ∧ ∃ lon lat, v = [lon, lat] ∧ lonOK lon ∧ latOK lat := by
  match v with
  | [lon, lat] =>
    by_cases hlon : lonOK lon
    · by_cases hlat : latOK lat
      · simp [validate_point_coordinates, hlon, hlat] at h
        exact ⟨h.symm, lon, lat, rfl, hlon, hlat⟩
      · simp [validate_point_coordinates, hlon, hlat] at h
    · simp [validate_point_coordinates, hlon] at h
  | [] => simp [validate_point_coordinates] at h
  | [_] => simp [validate_point_coordinates] at h
  | _ :: _ :: _ :: _ => simp [validate_point_coordinates] at h

theorem validate_point_coordinates_of {lon lat : ℚ}
    (hlon : lonOK lon) (hlat : latOK lat) :
    validate_point_coordinates [lon, lat] = .ok [lon, lat] := by
  simp [validate_point_coordinates, hlon, hlat]

theorem check_polygon_pairs_eq_ok (v : List (List ℚ)) :
    check_polygon_pairs v = .ok () ↔ v.all pair_ok = true := by
  induction v with
  | nil => simp [check_polygon_pairs]
  | cons c rest ih =>
    match c with
    | [lon, lat] =>
      by_cases hlon : lonOK lon
      · by_cases hlat : latOK lat
        · simp [check_polygon_pairs, pair_ok, hlon, hlat, ih]
        · simp [check_polygon_pairs, pair_ok, hlon, hlat]
      · simp [check_polygon_pairs, pair_ok, hlon]
    | [] => simp [check_polygon_pairs, pair_ok]
    | [_] => simp [check_polygon_pairs, pair_ok]
    | _ :: _ :: _ :: _ => simp [check_polygon_pairs, pair_ok]

theorem pair_ok_shape {c : List ℚ} (h : pair_ok c = true) :
    ∃ lon lat, c = [lon, lat] ∧ lonOK lon ∧ latOK lat := by
  match c with
  | [lon, lat] =>
    simp [pair_ok] at h
    exact ⟨lon, lat, rfl, h.1, h.2⟩
  | [] => simp [pair_ok] at h
  | [_] => simp [pair_ok] at h
  | _ :: _ :: _ :: _ => simp [pair_ok] at h

theorem close_ring_head_last {v : List (List ℚ)} (hv : v ≠ []) :
    (close_ring v).head? = (close_ring v).getLast? := by
  unfold close_ring
  by_cases hc : v.head? = v.getLast?
  · simp [hc]
  · simp only [hc, if_false]
    match v, hv with
    | a :: t, _ =>
      rw [show (a :: t).take 1 = [a] from rfl, List.getLast?_concat]
      rfl

theorem close_ring_length {v : List (List ℚ)} :
    v.length ≤ (close_ring v).length := by
  unfold close_ring
  by_cases hc : v.head? = v.getLast? <;> simp [hc]

theorem close_ring_all {v : List (List ℚ)} {p : List ℚ → Bool}
    (h : v.all p = true) : (close_ring v).all p = true := by
  unfold close_ring
  by_cases hc : v.head? = v.getLast?
  · rw [if_pos hc]; exact h
  · simp only [hc, if_false, List.all_append, Bool.and_eq_true]
    refine ⟨h, ?_⟩
    rw [List.all_eq_true] at h ⊢
    exact fun c hc => h c (List.take_subset 1 v hc)

theorem validate_polygon_coordinates_ok {v w : List (List ℚ)}
    (h : validate_polygon_coordinates v = .ok w) :
    w = close_ring v ∧ 3 ≤ v.length ∧ v.all pair_ok = true := by
  unfold validate_polygon_coordinates at h
  by_cases hlen : v.length < 3
  · simp [hlen] at h
  · simp only [hlen, if_false] at h
    rcases hcheck : check_polygon_pairs v with e | u
    · rw [hcheck] at h; cases h
    · rw [hcheck] at h
      simp only [Except.ok.injEq] at h
      exact ⟨h.symm, by omega, (check_polygon_pairs_eq_ok v).mp (by
        cases u; exact hcheck)⟩

theorem validate_polygon_coordinates_of {v : List (List ℚ)}
    (hlen : 3 ≤ v.length) (hall : v.all pair_ok = true) :
    validate_polygon_coordinates v = .ok (close_ring v) := by
  unfold validate_polygon_coordinates
  have hlen' : ¬ v.length < 3 := by omega
  simp only [hlen', if_false]
  rw [(check_polygon_pairs_eq_ok v).mpr hall]

theorem polygon_wkt_ring_ok {v w : List (List ℚ)}
    (h : polygon_wkt_ring v = .ok w) : w = v := by
  induction v generalizing w with
  | nil => simp [polygon_wkt_ring] at h; exact h
  | cons c rest ih =>
    match c with
    | [lon, lat] =>
      have h2 : (polygon_wkt_ring rest).map (fun t => [lon, lat] :: t) =
          Except.ok w := h
      rcases hr : polygon_wkt_ring rest with e | t
      · rw [hr] at h2; exact Except.noConfusion h2
      · rw [hr] at h2
        simp only [Except.map, Except.ok.injEq] at h2
        subst h2
        rw [ih hr]
    | [] => exact Except.noConfusion h
    | [_] => exact Except.noConfusion h
    | _ :: _ :: _ :: _ => exact Except.noConfusion h

theorem polygon_wkt_ring_of_arity {v : List (List ℚ)}
    (h : v.all pair_ok = true) : polygon_wkt_ring v = .ok v := by
  induction v with
  | nil => rfl
  | cons c rest ih =>
    simp only [List.all_cons, Bool.and_eq_true] at h
    obtain ⟨lon, lat, rfl, -, -⟩ := pair_ok_shape h.1
    unfold polygon_wkt_ring
    rw [ih h.2]
    rfl

/-! ## Helper lemmas: session and batch loops -/

theorem flush_point_ok {fail : NewRecord → Bool} {now : Timestamp}
    {s s' : Session} {n : NewRecord} {r : SpatialRecord}
    (h : Session.flush_point fail now s n = .ok (s', r)) :
    s'.committed = s.committed ∧
    r = mk_row now s.pending.next_point_id n ∧
    s'.pending = { s.pending with
      points := s.pending.points ++ [r],
      next_point_id := s.pending.next_point_id + 1 } := by
  unfold Session.flush_point at h
  split at h
  · exact Except.noConfusion h
  · simp only [Except.ok.injEq, Prod.mk.injEq] at h
    obtain ⟨hs, hr⟩ := h
    subst hr
    exact ⟨by rw [← hs], rfl, by rw [← hs]⟩

theorem flush_polygon_ok {fail : NewRecord → Bool} {now : Timestamp}
    {s s' : Session} {n : NewRecord} {r : SpatialRecord}
    (h : Session.flush_polygon fail now s n = .ok (s', r)) :
    s'.committed = s.committed ∧
    r = mk_row now s.pending.next_polygon_id n ∧
    s'.pending = { s.pending with
      polygons := s.pending.polygons ++ [r],
      next_polygon_id := s.pending.next_polygon_id + 1 } := by
  unfold Session.flush_polygon at h
  split at h
  · exact Except.noConfusion h
  · simp only [Except.ok.injEq, Prod.mk.injEq] at h
    obtain ⟨hs, hr⟩ := h
    subst hr
    exact ⟨by rw [← hs], rfl, by rw [← hs]⟩

theorem flush_point_no_fail {fail : NewRecord → Bool} (now : Timestamp)
    (s : Session) {n : NewRecord} (hf : fail n = false) :
    ∃ s' r, Session.flush_point fail now s n = .ok (s', r) := by
  refine ⟨_, _, show Session.flush_point fail now s n =
    .ok ({ s with pending := { s.pending with
             points := s.pending.points ++
               [mk_row now s.pending.next_point_id n],
             next_point_id := s.pending.next_point_id + 1 } },
         mk_row now s.pending.next_point_id n) from ?_⟩
  unfold Session.flush_point
  rw [hf]
  simp

theorem flush_polygon_no_fail {fail : NewRecord → Bool} (now : Timestamp)
    (s : Session) {n : NewRecord} (hf : fail n = false) :
    ∃ s' r, Session.flush_polygon fail now s n = .ok (s', r) := by
  refine ⟨_, _, show Session.flush_polygon fail now s n =
    .ok ({ s with pending := { s.pending with
             polygons := s.pending.polygons ++
               [mk_row now s.pending.next_polygon_id n],
             next_polygon_id := s.pending.next_polygon_id + 1 } },
         mk_row now s.pending.next_polygon_id n) from ?_⟩
  unfold Session.flush_polygon
  rw [hf]
  simp

theorem flush_points_loop_error {fail : NewRecord → Bool} {now : Timestamp} :
    ∀ {ps : List PointCreate} {s : Session} {e : String} {sf : Session},
    flush_points_loop fail now s ps = .error (e, sf) →
    sf.committed = s.committed := by
  intro ps
  induction ps with
  | nil => intro s e sf h; exact Except.noConfusion h
  | cons p rest ih =>
    intro s e sf h
    rcases hn : point_new_record p with e' | n
    · simp only [flush_points_loop, hn] at h
      cases h
      rfl
    · simp only [flush_points_loop, hn] at h
      rcases hflush : Session.flush_point fail now s n with e' | ⟨s', r⟩
      · simp only [hflush] at h
        cases h
        rfl
      · simp only [hflush] at h
        rcases hrest : flush_points_loop fail now s' rest with es | ⟨s'', feats⟩
        · simp only [hrest] at h
          cases h
          rw [ih hrest, (flush_point_ok hflush).1]
        · simp only [hrest] at h
          exact Except.noConfusion h

theorem flush_polygons_loop_error {fail : NewRecord → Bool}
    {now : Timestamp} :
    ∀ {ps : List PolygonCreate} {s : Session} {e : String} {sf : Session},
    flush_polygons_loop fail now s ps = .error (e, sf) →
    sf.committed = s.committed := by
  intro ps
  induction ps with
  | nil => intro s e sf h; exact Except.noConfusion h
  | cons p rest ih =>
    intro s e sf h
    rcases hn : polygon_new_record p with e' | n
    · simp only [flush_polygons_loop, hn] at h
      cases h
      rfl
    · simp only [flush_polygons_loop, hn] at h
      rcases hflush : Session.flush_polygon fail now s n with e' | ⟨s', r⟩
      · simp only [hflush] at h
        cases h
        rfl
      · simp only [hflush] at h
        rcases hrest : flush_polygons_loop fail now s' rest with es | ⟨s'', feats⟩
        · simp only [hrest] at h
          cases h
          rw [ih hrest, (flush_polygon_ok hflush).1]
        · simp only [hrest] at h
          exact Except.noConfusion h

theorem flush_points_loop_ok {fail : NewRecord → Bool} {now : Timestamp} :
    ∀ {ps : List PointCreate} {s s' : Session} {feats : List Json},
    flush_points_loop fail now s ps = .ok (s', feats) →
    s'.committed = s.committed ∧
    s'.pending.points =
      s.pending.points ++ point_batch_rows now s.pending.next_point_id ps ∧
    s'.pending.polygons = s.pending.polygons := by
  intro ps
  induction ps with
  | nil =>
    intro s s' feats h
    simp only [flush_points_loop, Except.ok.injEq, Prod.mk.injEq] at h
    rw [← h.1]
    exact ⟨rfl, by simp [point_batch_rows], rfl⟩
  | cons p rest ih =>
    intro s s' feats h
    rcases hn : point_new_record p with e' | n
    · simp only [flush_points_loop, hn] at h
      exact Except.noConfusion h
    · simp only [flush_points_loop, hn] at h
      rcases hflush : Session.flush_point fail now s n with e' | ⟨s1, r⟩
      · simp only [hflush] at h
        exact Except.noConfusion h
      · simp only [hflush] at h
        rcases hrest : flush_points_loop fail now s1 rest with es | ⟨s2, feats2⟩
        · simp only [hrest] at h
          exact Except.noConfusion h
        · simp only [hrest] at h
          simp only [Except.ok.injEq, Prod.mk.injEq] at h
          obtain ⟨hs2, -⟩ := h
          subst hs2
          obtain ⟨hcom, hrow, hpend⟩ := flush_point_ok hflush
          obtain ⟨ihcom, ihpts, ihpolys⟩ := ih hrest
          refine ⟨by rw [ihcom, hcom], ?_, by rw [ihpolys, hpend]⟩
          rw [ihpts, hpend]
          simp only [point_batch_rows, hn, List.append_assoc,
            List.singleton_append]
          rw [hrow]

theorem flush_polygons_loop_ok {fail : NewRecord → Bool} {now : Timestamp} :
    ∀ {ps : List PolygonCreate} {s s' : Session} {feats : List Json},
    flush_polygons_loop fail now s ps = .ok (s', feats) →
    s'.committed = s.committed ∧
    s'.pending.polygons =
      s.pending.polygons ++
        polygon_batch_rows now s.pending.next_polygon_id ps ∧
    s'.pending.points = s.pending.points := by
  intro ps
  induction ps with
  | nil =>
    intro s s' feats h
    simp only [flush_polygons_loop, Except.ok.injEq, Prod.mk.injEq] at h
    rw [← h.1]
    exact ⟨rfl, by simp [polygon_batch_rows], rfl⟩
  | cons p rest ih =>
    intro s s' feats h
    rcases hn : polygon_new_record p with e' | n
    · simp only [flush_polygons_loop, hn] at h
      exact Except.noConfusion h
    · simp only [flush_polygons_loop, hn] at h
      rcases hflush : Session.flush_polygon fail now s n with e' | ⟨s1, r⟩
      · simp only [hflush] at h
        exact Except.noConfusion h
      · simp only [hflush] at h
        rcases hrest : flush_polygons_loop fail now s1 rest with es | ⟨s2, feats2⟩
        · simp only [hrest] at h
          exact Except.noConfusion h
        · simp only [hrest] at h
          simp only [Except.ok.injEq, Prod.mk.injEq] at h
          obtain ⟨hs2, -⟩ := h
          subst hs2
          obtain ⟨hcom, hrow, hpend⟩ := flush_polygon_ok hflush
          obtain ⟨ihcom, ihpts, ihpoints⟩ := ih hrest
          refine ⟨by rw [ihcom, hcom], ?_, by rw [ihpoints, hpend]⟩
          rw [ihpts, hpend]
          simp only [polygon_batch_rows, hn, List.append_assoc,
            List.singleton_append]
          rw [hrow]

theorem flush_points_loop_total {fail : NewRecord → Bool} (now : Timestamp)
    (hfail : ∀ n, fail n = false) :
    ∀ (ps : List PointCreate) (s : Session),
    (∀ p ∈ ps, ∃ n, point_new_record p = .ok n) →
    ∃ s' feats, flush_points_loop fail now s ps = .ok (s', feats) := by
  intro ps
  induction ps with
  | nil => intro s _; exact ⟨_, _, rfl⟩
  | cons p rest ih =>
    intro s hall
    obtain ⟨n, hn⟩ := hall p (by simp)
    obtain ⟨s1, r, hflush⟩ := flush_point_no_fail now s (hfail n)
    obtain ⟨s2, feats, hrest⟩ :=
      ih s1 (fun q hq => hall q (by simp [hq]))
    exact ⟨s2, r.to_geojson :: feats,
      by simp only [flush_points_loop, hn, hflush, hrest]⟩

theorem flush_polygons_loop_total {fail : NewRecord → Bool} (now : Timestamp)
    (hfail : ∀ n, fail n = false) :
    ∀ (ps : List PolygonCreate) (s : Session),
    (∀ p ∈ ps, ∃ n, polygon_new_record p = .ok n) →
    ∃ s' feats, flush_polygons_loop fail now s ps = .ok (s', feats) := by
  intro ps
  induction ps with
  | nil => intro s _; exact ⟨_, _, rfl⟩
  | cons p rest ih =>
    intro s hall
    obtain ⟨n, hn⟩ := hall p (by simp)
    obtain ⟨s1, r, hflush⟩ := flush_polygon_no_fail now s (hfail n)
    obtain ⟨s2, feats, hrest⟩ :=
      ih s1 (fun q hq => hall q (by simp [hq]))
    exact ⟨s2, r.to_geojson :: feats,
      by simp only [flush_polygons_loop, hn, hflush, hrest]⟩

/-! ## Helper lemmas: whole-schema validation and row lookup -/

theorem validate_all_id {α : Type} {f : α → Except String α}
    (hid : ∀ x y, f x = .ok y → y = x) :
    ∀ {xs ys : List α}, validate_all f xs = .ok ys → ys = xs := by
  intro xs
  induction xs with
  | nil =>
    intro ys h
    simp only [validate_all, Except.ok.injEq] at h
    exact h.symm
  | cons x rest ih =>
    intro ys h
    rcases hx : f x with e | y
    · simp only [validate_all, hx] at h
      exact Except.noConfusion h
    · simp only [validate_all, hx] at h
      rcases hrest : validate_all f rest with e | zs
      · simp only [hrest] at h
        exact Except.noConfusion h
      · simp only [hrest] at h
        cases h
        rw [hid x y hx, ih hrest]

theorem validate_all_mem {α : Type} {f : α → Except String α} :
    ∀ {xs ys : List α}, validate_all f xs = .ok ys →
    ∀ y ∈ ys, ∃ x, x ∈ xs ∧ f x = .ok y := by
  intro xs
  induction xs with
  | nil =>
    intro ys h y hy
    simp only [validate_all, Except.ok.injEq] at h
    subst h
    simp at hy
  | cons x rest ih =>
    intro ys h y hy
    rcases hx : f x with e | z
    · simp only [validate_all, hx] at h
      exact Except.noConfusion h
    · simp only [validate_all, hx] at h
      rcases hrest : validate_all f rest with e | zs
      · simp only [hrest] at h
        exact Except.noConfusion h
      · simp only [hrest] at h
        cases h
        rcases List.mem_cons.mp hy with hy | hy
        · exact ⟨x, List.mem_cons_self x rest, by rw [hx, hy]⟩
        · obtain ⟨x', hx', hfx'⟩ := ih hrest y hy
          exact ⟨x', List.mem_cons_of_mem x hx', hfx'⟩

theorem point_create_validate_ok {p q : PointCreate}
    (h : p.validate = .ok q) :
    q = p ∧ ∃ n, point_new_record p = .ok n := by
  unfold PointCreate.validate at h
  rcases hv : validate_point_coordinates p.coordinates with e | w
  · rw [hv] at h
    exact Except.noConfusion h
  · rw [hv] at h
    simp only [Except.map, Except.ok.injEq] at h
    obtain ⟨hw, lon, lat, hc, -, -⟩ := validate_point_coordinates_ok hv
    subst hw
    constructor
    · rw [← h]
    · exact ⟨⟨p.name, p.description, p.attributes, .point lon lat⟩,
        by unfold point_new_record; rw [hc]⟩

theorem polygon_create_validate_ok {p q : PolygonCreate}
    (h : p.validate = .ok q) :
    q.name = p.name ∧ q.description = p.description ∧
    q.attributes = p.attributes ∧
    q.coordinates = close_ring p.coordinates ∧
    ring_ok q.coordinates ∧
    polygon_new_record q =
      .ok ⟨q.name, q.description, q.attributes, .polygon q.coordinates⟩ := by
  unfold PolygonCreate.validate at h
  rcases hv : validate_polygon_coordinates p.coordinates with e | w
  · rw [hv] at h
    exact Except.noConfusion h
  · rw [hv] at h
    simp only [Except.map, Except.ok.injEq] at h
    obtain ⟨hw, hlen, hall⟩ := validate_polygon_coordinates_ok hv
    subst hw
    subst h
    have hne : p.coordinates ≠ [] := by
      intro hnil
      rw [hnil] at hlen
      simp at hlen
    have hro : ring_ok (close_ring p.coordinates) :=
      ⟨le_trans hlen close_ring_length, close_ring_head_last hne,
       close_ring_all hall⟩
    refine ⟨rfl, rfl, rfl, rfl, hro, ?_⟩
    unfold polygon_new_record
    rw [show ({ p with coordinates := close_ring p.coordinates } :
        PolygonCreate).coordinates = close_ring p.coordinates from rfl,
      polygon_wkt_ring_of_arity (close_ring_all hall)]
    rfl

theorem find?_map_replace {l : List SpatialRecord} {pid : Nat}
    {r r' : SpatialRecord}
    (h : l.find? (fun x => x.id == pid) = some r) (hid : r'.id = r.id) :
    (l.map fun x => if x.id == pid then r' else x).find?
      (fun x => x.id == pid) = some r' := by
  induction l with
  | nil => simp at h
  | cons a t ih =>
    by_cases ha : (a.id == pid) = true
    · simp only [List.find?, ha] at h
      cases h
      have hr' : (r'.id == pid) = true := by rw [hid]; exact ha
      simp only [List.map_cons, if_pos ha, List.find?, hr']
    · have ha' : (a.id == pid) = false := by simpa using ha
      simp only [List.find?, ha'] at h
      simpa [List.find?, ha'] using ih h

theorem find?_filter_ne (l : List SpatialRecord) (pid : Nat) :
    (l.filter fun x => x.id != pid).find? (fun x => x.id == pid) = none := by
  rw [List.find?_eq_none]
  intro x hx
  have := List.of_mem_filter hx
  simp only [bne_iff_ne, ne_eq] at this
  simp [this]

/-! ## Helper lemmas: validation failures -/

theorem validate_point_coordinates_error {v : List ℚ}
    (h : ∀ lon lat, v = [lon, lat] → ¬ (lonOK lon ∧ latOK lat)) :
    ∃ e, validate_point_coordinates v = .error e := by
  match v with
  | [lon, lat] =>
    have hb := h lon lat rfl
    by_cases hlon : lonOK lon
    · have hlat : ¬ latOK lat := fun hl => hb ⟨hlon, hl⟩
      exact ⟨"Latitude must be between -90 and 90",
        by simp [validate_point_coordinates, hlon, hlat]⟩
    · exact ⟨"Longitude must be between -180 and 180",
        by simp [validate_point_coordinates, hlon]⟩
  | [] => exact ⟨_, rfl⟩
  | [_] => exact ⟨_, rfl⟩
  | _ :: _ :: _ :: _ => exact ⟨_, rfl⟩

theorem check_polygon_pairs_error {v : List (List ℚ)}
    (h : ∃ c ∈ v, pair_ok c = false) :
    ∃ e, check_polygon_pairs v = .error e := by
  rcases hc : check_polygon_pairs v with e | u
  · exact ⟨e, rfl⟩
  · exfalso
    obtain ⟨c, hcm, hcf⟩ := h
    have hall : v.all pair_ok = true :=
      (check_polygon_pairs_eq_ok v).mp (by cases u; exact hc)
    rw [List.all_eq_true] at hall
    have := hall c hcm
    rw [hcf] at this
    exact Bool.noConfusion this

theorem validate_polygon_coordinates_error {v : List (List ℚ)}
    (h : ∃ c ∈ v, pair_ok c = false) :
    ∃ e, validate_polygon_coordinates v = .error e := by
  unfold validate_polygon_coordinates
  by_cases hlen : v.length < 3
  · exact ⟨_, by rw [if_pos hlen]⟩
  · rw [if_neg hlen]
    obtain ⟨e, hce⟩ := check_polygon_pairs_error h
    rw [hce]
    exact ⟨e, rfl⟩

theorem create_point_validation_error {p : PointCreate} {e : String}
    (fail : NewRecord → Bool) (now : Timestamp) (st : Store)
    (he : validate_point_coordinates p.coordinates = .error e) :
    create_point fail now st p = (st, .error (.validation e)) := by
  unfold create_point PointCreate.validate
  rw [he]
  rfl

theorem create_polygon_validation_error {p : PolygonCreate} {e : String}
    (fail : NewRecord → Bool) (now : Timestamp) (st : Store)
    (he : validate_polygon_coordinates p.coordinates = .error e) :
    create_polygon fail now st p = (st, .error (.validation e)) := by
  unfold create_polygon PolygonCreate.validate
  rw [he]
  rfl

theorem update_point_validation_error {u : PointUpdate} {v : List ℚ}
    {e : String} (now : Timestamp) (st : Store) (pid : Nat)
    (hc : u.coordinates = some v)
    (he : validate_point_coordinates v = .error e) :
    update_point now st pid u = (st, .error (.validation e)) := by
  unfold update_point PointUpdate.validate validate_point_update_coordinates
  simp only [hc]
  rw [he]
  rfl

theorem update_polygon_validation_error {u : PolygonUpdate}
    {v : List (List ℚ)} {e : String} (now : Timestamp) (st : Store)
    (pid : Nat) (hc : u.coordinates = some v)
    (he : validate_polygon_coordinates v = .error e) :
    update_polygon now st pid u = (st, .error (.validation e)) := by
  unfold update_polygon PolygonUpdate.validate
    validate_polygon_update_coordinates
  simp only [hc]
  rw [he]
  rfl

/-! ## Claims -/

/-- **C2.** Ring closure is a silent normalization: for every polygon
coordinate list of at least 3 in-bounds pairs whose first pair differs from
its last pair, polygon create validation and polygon update-with-new-
coordinates validation append the first pair to the end before encoding, so
the resulting ring's first and last pairs are equal; a list whose first and
last pairs are already equal is left unchanged; the open ring is accepted
(`.ok`), never rejected as an error. -/
theorem ring_closure_silent_normalization (v : List (List ℚ))
    (hlen : 3 ≤ v.length) (hpairs : v.all pair_ok = true) :
    (v.head? ≠ v.getLast? →
      validate_polygon_coordinates v = .ok (v ++ v.take 1) ∧
      validate_polygon_update_coordinates (some v) =
        .ok (some (v ++ v.take 1)) ∧
      (v ++ v.take 1).head? = (v ++ v.take 1).getLast?) ∧
    (v.head? = v.getLast? →
      validate_polygon_coordinates v = .ok v ∧
      validate_polygon_update_coordinates (some v) = .ok (some v)) := by
  have hvc := validate_polygon_coordinates_of hlen hpairs
  have hne : v ≠ [] := by
    intro hnil
    rw [hnil] at hlen
    simp at hlen
  constructor
  · intro hopen
    have hcr : close_ring v = v ++ v.take 1 := by
      unfold close_ring
      rw [if_neg hopen]
    refine ⟨by rw [hvc, hcr], ?_, ?_⟩
    · show (validate_polygon_coordinates v).map some = _
      rw [hvc, hcr]
      rfl
    · have hh := close_ring_head_last hne
      rwa [hcr] at hh
  · intro hclosed
    have hcr : close_ring v = v := by
      unfold close_ring
      rw [if_pos hclosed]
    refine ⟨by rw [hvc, hcr], ?_⟩
    show (validate_polygon_coordinates v).map some = _
    rw [hvc, hcr]
    rfl

/-- Witness for C2 at the open triangle `[[0,0],[0,1],[1,0]]` and the
already-closed ring `[[0,0],[1,1],[0,0]]`. -/
theorem ring_closure_silent_normalization_witness :
    (validate_polygon_coordinates [[0,0],[0,1],[1,0]] =
      .ok ([[0,0],[0,1],[1,0]] ++ ([[0,0],[0,1],[1,0]] :
        List (List ℚ)).take 1) ∧
     (([[0,0],[0,1],[1,0]] : List (List ℚ)) ++
        ([[0,0],[0,1],[1,0]] : List (List ℚ)).take 1).head? =
       (([[0,0],[0,1],[1,0]] : List (List ℚ)) ++
        ([[0,0],[0,1],[1,0]] : List (List ℚ)).take 1).getLast?) ∧
    validate_polygon_coordinates [[0,0],[1,1],[0,0]] =
      .ok [[0,0],[1,1],[0,0]] := by
  have h1 := (ring_closure_silent_normalization [[0,0],[0,1],[1,0]]
    (by decide) (by decide)).1 (by decide)
  have h2 := (ring_closure_silent_normalization [[0,0],[1,1],[0,0]]
    (by decide) (by decide)).2 (by decide)
  exact ⟨⟨h1.1, h1.2.2⟩, h2.1⟩

/-- **C3.** Coordinate validation: a point or polygon create/update input
whose coordinate pair is out of bounds (longitude outside [-180, 180] or
latitude outside [-90, 90]) or not an exact 2-element pair fails with a
`ValidationError` and leaves the store exactly as it was; inputs whose
pairs are all in bounds pass validation. -/
theorem coordinate_validation_bounds
    (fail : NewRecord → Bool) (now : Timestamp) (st : Store)
    (p : PointCreate) (pg : PolygonCreate) (pid : Nat)
    (u : PointUpdate) (ug : PolygonUpdate) :
    ((∀ lon lat, p.coordinates = [lon, lat] → ¬ (lonOK lon ∧ latOK lat)) →
      ∃ e, create_point fail now st p = (st, .error (.validation e))) ∧
    ((∃ c ∈ pg.coordinates, pair_ok c = false) →
      ∃ e, create_polygon fail now st pg = (st, .error (.validation e))) ∧
    ((∃ v, u.coordinates = some v ∧
        ∀ lon lat, v = [lon, lat] → ¬ (lonOK lon ∧ latOK lat)) →
      ∃ e, update_point now st pid u = (st, .error (.validation e))) ∧
    ((∃ v, ug.coordinates = some v ∧ ∃ c ∈ v, pair_ok c = false) →
      ∃ e, update_polygon now st pid ug = (st, .error (.validation e))) ∧
    (∀ lon lat, lonOK lon → latOK lat →
      validate_point_coordinates [lon, lat] = .ok [lon, lat]) ∧
    (3 ≤ pg.coordinates.length → pg.coordinates.all pair_ok = true →
      validate_polygon_coordinates pg.coordinates =
        .ok (close_ring pg.coordinates)) := by
  refine ⟨?_, ?_, ?_, ?_, ?_, ?_⟩
  · intro hbad
    obtain ⟨e, he⟩ := validate_point_coordinates_error hbad
    exact ⟨e, create_point_validation_error fail now st he⟩
  · intro hbad
    obtain ⟨e, he⟩ := validate_polygon_coordinates_error hbad
    exact ⟨e, create_polygon_validation_error fail now st he⟩
  · rintro ⟨v, hcv, hbad⟩
    obtain ⟨e, he⟩ := validate_point_coordinates_error hbad
    exact ⟨e, update_point_validation_error now st pid hcv he⟩
  · rintro ⟨v, hcv, hbad⟩
    obtain ⟨e, he⟩ := validate_polygon_coordinates_error hbad
    exact ⟨e, update_polygon_validation_error now st pid hcv he⟩
  · exact fun lon lat hlon hlat => validate_point_coordinates_of hlon hlat
  · exact fun hlen hall => validate_polygon_coordinates_of hlen hall

/-- Witness for C3: `lon = 200` fails every create/update path against the
empty store, and the in-bounds pair `[10, 20]` passes validation. -/
theorem coordinate_validation_bounds_witness :
    (∃ e, create_point no_fail ts0 empty_store
        ⟨"a", none, none, [200, 0]⟩ =
      (empty_store, .error (.validation e))) ∧
    (∃ e, create_polygon no_fail ts0 empty_store
        ⟨"b", none, none, [[0,0],[0,1],[200,0]]⟩ =
      (empty_store, .error (.validation e))) ∧
    (∃ e, update_point ts0 empty_store 1
        ⟨none, none, none, some [0, 100]⟩ =
      (empty_store, .error (.validation e))) ∧
    (∃ e, update_polygon ts0 empty_store 1
        ⟨none, none, none, some [[0,0],[0,1],[0,100]]⟩ =
      (empty_store, .error (.validation e))) ∧
    validate_point_coordinates [10, 20] = .ok [10, 20] := by
  have h := coordinate_validation_bounds no_fail ts0 empty_store
    ⟨"a", none, none, [200, 0]⟩ ⟨"b", none, none, [[0,0],[0,1],[200,0]]⟩ 1
    ⟨none, none, none, some [0, 100]⟩
    ⟨none, none, none, some [[0,0],[0,1],[0,100]]⟩
  refine ⟨h.1 ?_, h.2.1 ?_, h.2.2.1 ?_, h.2.2.2.1 ?_,
    h.2.2.2.2.1 10 20 (by norm_num [lonOK]) (by norm_num [latOK])⟩
  · intro lon lat heq hb
    injection heq with h1 h2
    injection h2 with h2 _
    subst h1
    have := hb.1.2
    norm_num at this
  · exact ⟨[200, 0], by decide, by decide⟩
  · refine ⟨[0, 100], rfl, ?_⟩
    intro lon lat heq hb
    injection heq with h1 h2
    injection h2 with h2 _
    subst h2
    have := hb.2.2
    norm_num at this
  · exact ⟨[[0,0],[0,1],[0,100]], rfl, ⟨[0, 100], by decide, by decide⟩⟩

/-- **C5.** Delete then get: after `delete_point` succeeds for an id, a
subsequent `get_point` on the resulting store returns NotFound; and for
every id with no row in the store, `get_point`, `update_point` (with a
well-formed body) and `delete_point` all return NotFound and leave the
store unchanged. -/
theorem delete_then_get_not_found (st : Store) (pid : Nat)
    (now : Timestamp) (u : PointUpdate) :
    (∀ st', delete_point st pid = (st', .ok ()) →
      get_point st' pid = .error (.notFound "Point not found")) ∧
    (find_point st pid = none →
      get_point st pid = .error (.notFound "Point not found") ∧
      (∀ u', u.validate = .ok u' →
        update_point now st pid u =
          (st, .error (.notFound "Point not found"))) ∧
      delete_point st pid = (st, .error (.notFound "Point not found"))) := by
  constructor
  · intro st' hdel
    unfold delete_point at hdel
    rcases hf : find_point st pid with _ | r
    · simp only [hf] at hdel
      simp at hdel
    · simp only [hf] at hdel
      injection hdel with h1 h2
      subst h1
      unfold get_point
      rw [show find_point
          { st with points := st.points.filter fun r => r.id != pid } pid =
          none from find?_filter_ne st.points pid]
  · intro hnone
    refine ⟨?_, ?_, ?_⟩
    · unfold get_point
      rw [hnone]
    · intro u' hu'
      unfold update_point
      rw [hu', hnone]
    · unfold delete_point
      rw [hnone]

/-- Witness for C5: deleting the sample point then getting it, and
get/update/delete at the absent id 7 of the empty store. -/
theorem delete_then_get_not_found_witness :
    get_point (delete_point sample_point_store 1).1 1 =
      .error (.notFound "Point not found") ∧
    get_point empty_store 7 = .error (.notFound "Point not found") ∧
    update_point ts0 empty_store 7 ⟨some "x", none, none, none⟩ =
      (empty_store, .error (.notFound "Point not found")) ∧
    delete_point empty_store 7 =
      (empty_store, .error (.notFound "Point not found")) := by
  have h := delete_then_get_not_found sample_point_store 1 ts0
    ⟨some "x", none, none, none⟩
  have h2 := delete_then_get_not_found empty_store 7 ts0
    ⟨some "x", none, none, none⟩
  exact ⟨h.1 (delete_point sample_point_store 1).1 rfl, (h2.2 rfl).1,
    (h2.2 rfl).2.1 ⟨some "x", none, none, none⟩ rfl, (h2.2 rfl).2.2⟩

theorem point_update_validate_none {u : PointUpdate}
    (hc : u.coordinates = none) : u.validate = .ok u := by
  obtain ⟨n, d, a, c⟩ := u
  have hc' : c = none := hc
  subst hc'
  rfl

theorem point_update_validate_coords {u : PointUpdate} {lon lat : ℚ}
    (hc : u.coordinates = some [lon, lat])
    (hlon : lonOK lon) (hlat : latOK lat) : u.validate = .ok u := by
  obtain ⟨n, d, a, c⟩ := u
  have hc' : c = some [lon, lat] := hc
  subst hc'
  unfold PointUpdate.validate validate_point_update_coordinates
  simp only [validate_point_coordinates_of hlon hlat, Except.map]

theorem polygon_update_validate_none {u : PolygonUpdate}
    (hc : u.coordinates = none) : u.validate = .ok u := by
  obtain ⟨n, d, a, c⟩ := u
  have hc' : c = none := hc
  subst hc'
  rfl

theorem polygon_update_validate_coords {u : PolygonUpdate}
    {v w : List (List ℚ)} (hc : u.coordinates = some v)
    (hv : validate_polygon_coordinates v = .ok w) :
    u.validate = .ok { u with coordinates := some w } := by
  obtain ⟨n, d, a, c⟩ := u
  have hc' : c = some v := hc
  subst hc'
  unfold PolygonUpdate.validate validate_polygon_update_coordinates
  simp only [hv, Except.map]

/-- **C4.** Partial update is a semantic PATCH: absent (`None`) fields
leave the corresponding stored field unchanged — in particular a name-only
update leaves geometry, description and attributes exactly as before — and
supplying new coordinates replaces the stored geometry entirely; `id` and
`created_at` are unchanged in every case.  Stated for both points and
polygons. -/
theorem partial_update_patch_semantics (now : Timestamp) (st : Store)
    (pid : Nat) (u : PointUpdate) (ug : PolygonUpdate)
    (r : SpatialRecord) :
    (find_point st pid = some r →
      u.description = none → u.attributes = none → u.coordinates = none →
      ∃ r', find_point (update_point now st pid u).1 pid = some r' ∧
        (update_point now st pid u).2 = .ok r'.to_geojson ∧
        r'.geom = r.geom ∧ r'.description = r.description ∧
        r'.attributes = r.attributes ∧ r'.id = r.id ∧
        r'.created_at = r.created_at ∧ r'.name = u.name.getD r.name) ∧
    (∀ lon lat, find_point st pid = some r →
      u.coordinates = some [lon, lat] → lonOK lon → latOK lat →
      ∃ r', find_point (update_point now st pid u).1 pid = some r' ∧
        r'.geom = .point lon lat ∧ r'.id = r.id ∧
        r'.created_at = r.created_at) ∧
    (find_polygon st pid = some r →
      ug.description = none → ug.attributes = none → ug.coordinates = none →
      ∃ r', find_polygon (update_polygon now st pid ug).1 pid = some r' ∧
        (update_polygon now st pid ug).2 = .ok r'.to_geojson ∧
        r'.geom = r.geom ∧ r'.description = r.description ∧
        r'.attributes = r.attributes ∧ r'.id = r.id ∧
        r'.created_at = r.created_at ∧ r'.name = ug.name.getD r.name) ∧
    (∀ v w, find_polygon st pid = some r →
      ug.coordinates = some v → validate_polygon_coordinates v = .ok w →
      ∃ r', find_polygon (update_polygon now st pid ug).1 pid = some r' ∧
        r'.geom = .polygon w ∧ r'.id = r.id ∧
        r'.created_at = r.created_at) := by
  refine ⟨?_, ?_, ?_, ?_⟩
  · intro hf hd ha hc
    refine ⟨apply_point_update now u r, ?_, ?_, ?_, ?_, ?_, rfl, rfl, rfl⟩
    · unfold update_point
      simp only [point_update_validate_none hc, hf]
      exact find?_map_replace hf rfl
    · unfold update_point
      simp only [point_update_validate_none hc, hf]
    · simp [apply_point_update, point_update_geom, hc]
    · simp [apply_point_update, hd]
    · simp [apply_point_update, ha]
  · intro lon lat hf hc hlon hlat
    refine ⟨apply_point_update now u r, ?_, ?_, rfl, rfl⟩
    · unfold update_point
      simp only [point_update_validate_coords hc hlon hlat, hf]
      exact find?_map_replace hf rfl
    · simp [apply_point_update, point_update_geom, hc]
  · intro hf hd ha hc
    have happ : apply_polygon_update now ug r =
        .ok { r with
          name := ug.name.getD r.name,
          description := ug.description.or r.description,
          attributes := ug.attributes.or r.attributes,
          geom := r.geom,
          updated_at := some now } := by
      unfold apply_polygon_update polygon_update_geom
      simp only [hc, Except.map]
    refine ⟨{ r with
        name := ug.name.getD r.name,
        description := ug.description.or r.description,
        attributes := ug.attributes.or r.attributes,
        geom := r.geom,
        updated_at := some now },
      ?_, ?_, rfl, by simp [hd], by simp [ha], rfl, rfl, rfl⟩
    · unfold update_polygon
      simp only [polygon_update_validate_none hc, hf, happ]
      exact find?_map_replace hf rfl
    · unfold update_polygon
      simp only [polygon_update_validate_none hc, hf, happ]
  · intro v w hf hc hv
    obtain ⟨hw, hlen, hall⟩ := validate_polygon_coordinates_ok hv
    have hallw : w.all pair_ok = true := hw ▸ close_ring_all hall
    have hwne : w ≠ [] := by
      have : 3 ≤ w.length := hw ▸ le_trans hlen close_ring_length
      intro hnil
      rw [hnil] at this
      simp at this
    have hringw : polygon_wkt_ring w = .ok w := polygon_wkt_ring_of_arity hallw
    have happ : apply_polygon_update now { ug with coordinates := some w } r =
        .ok { r with
          name := ug.name.getD r.name,
          description := ug.description.or r.description,
          attributes := ug.attributes.or r.attributes,
          geom := .polygon w,
          updated_at := some now } := by
      unfold apply_polygon_update polygon_update_geom
      match w, hwne with
      | x :: xs, _ =>
        simp only [hringw, Except.map]
    refine ⟨{ r with
        name := ug.name.getD r.name,
        description := ug.description.or r.description,
        attributes := ug.attributes.or r.attributes,
        geom := .polygon w,
        updated_at := some now },
      ?_, rfl, rfl, rfl⟩
    unfold update_polygon
    simp only [polygon_update_validate_coords hc hv, hf, happ]
    exact find?_map_replace hf rfl

/-- Witness for C4: a name-only update of the sample point keeps its
geometry/description/attributes, and a coordinates update of the sample
polygon replaces its ring (closed) while keeping id and created_at. -/
theorem partial_update_patch_semantics_witness :
    (∃ r', find_point (update_point ts0 sample_point_store 1
          ⟨some "renamed", none, none, none⟩).1 1 = some r' ∧
      (update_point ts0 sample_point_store 1
          ⟨some "renamed", none, none, none⟩).2 = .ok r'.to_geojson ∧
      r'.geom = sample_point_row.geom ∧
      r'.description = sample_point_row.description ∧
      r'.attributes = sample_point_row.attributes ∧
      r'.id = sample_point_row.id ∧
      r'.created_at = sample_point_row.created_at ∧
      r'.name = (some "renamed").getD sample_point_row.name) ∧
    (∃ r', find_polygon (update_polygon ts0 sample_store 1
          ⟨none, none, none, some [[0,0],[0,1],[1,0]]⟩).1 1 = some r' ∧
      r'.geom = .polygon [[0,0],[0,1],[1,0],[0,0]] ∧
      r'.id = sample_polygon_row.id ∧
      r'.created_at = sample_polygon_row.created_at) := by
  have h1 := (partial_update_patch_semantics ts0 sample_point_store 1
    ⟨some "renamed", none, none, none⟩ ⟨none, none, none, none⟩
    sample_point_row).1 rfl rfl rfl rfl
  have h2 := (partial_update_patch_semantics ts0 sample_store 1
    ⟨none, none, none, none⟩ ⟨none, none, none, some [[0,0],[0,1],[1,0]]⟩
    sample_polygon_row).2.2.2 [[0,0],[0,1],[1,0]] [[0,0],[0,1],[1,0],[0,0]]
    rfl rfl rfl
  exact ⟨h1, h2⟩

theorem point_create_validate_of {p : PointCreate} {lon lat : ℚ}
    (hc : p.coordinates = [lon, lat]) (hlon : lonOK lon) (hlat : latOK lat) :
    p.validate = .ok p := by
  obtain ⟨n, d, a, c⟩ := p
  have hc' : c = [lon, lat] := hc
  subst hc'
  unfold PointCreate.validate
  simp only [validate_point_coordinates_of hlon hlat, Except.map]

/-- **C8.** Point encode/decode round-trip: for every longitude in
[-180, 180] and latitude in [-90, 90], creating a point from `[lon, lat]`
stores the geometry `POINT(lon lat)`, and decoding the stored geometry
yields the coordinate array `[lon, lat]` again — longitude first, latitude
second. -/
theorem point_roundtrip (fail : NewRecord → Bool) (now : Timestamp)
    (st : Store) (p : PointCreate) (lon lat : ℚ)
    (hc : p.coordinates = [lon, lat]) (hlon : lonOK lon) (hlat : latOK lat)
    (hfail :
      fail ⟨p.name, p.description, p.attributes, .point lon lat⟩ = false) :
    ∃ r : SpatialRecord,
      create_point fail now st p =
        ({ st with points := st.points ++ [r],
                   next_point_id := st.next_point_id + 1 },
         .ok r.to_geojson) ∧
      r.geom = .point lon lat ∧
      (decode_geom r.geom).lookup "coordinates" =
        some (.arr [.num lon, .num lat]) := by
  have hnr : point_new_record p =
      .ok ⟨p.name, p.description, p.attributes, .point lon lat⟩ := by
    unfold point_new_record
    simp only [hc]
  refine ⟨mk_row now st.next_point_id
    ⟨p.name, p.description, p.attributes, .point lon lat⟩, ?_, rfl, rfl⟩
  unfold create_point
  simp only [point_create_validate_of hc hlon hlat, hnr]
  have hflush : (Session.start st).flush_point fail now
      ⟨p.name, p.description, p.attributes, .point lon lat⟩ =
      .ok ({ Session.start st with pending := { st with
               points := st.points ++ [mk_row now st.next_point_id
                 ⟨p.name, p.description, p.attributes, .point lon lat⟩],
               next_point_id := st.next_point_id + 1 } },
           mk_row now st.next_point_id
             ⟨p.name, p.description, p.attributes, .point lon lat⟩) := by
    unfold Session.flush_point Session.start
    rw [hfail]
    simp
  simp only [hflush]
  rfl

/-- Witness for C8 at `[lon, lat] = [10, 20]` against the empty store. -/
theorem point_roundtrip_witness :
    ∃ r : SpatialRecord,
      create_point no_fail ts0 empty_store ⟨"p", none, none, [10, 20]⟩ =
        ({ empty_store with points := empty_store.points ++ [r],
                            next_point_id := empty_store.next_point_id + 1 },
         .ok r.to_geojson) ∧
      r.geom = .point 10 20 ∧
      (decode_geom r.geom).lookup "coordinates" =
        some (.arr [.num 10, .num 20]) :=
  point_roundtrip no_fail ts0 empty_store ⟨"p", none, none, [10, 20]⟩ 10 20
    rfl (by norm_num [lonOK]) (by norm_num [latOK]) rfl

/-- **C9.** Feature serialization shape: for every stored record,
`to_geojson` produces an object with `type = "Feature"`, the record's id,
the decoded stored geometry, and properties carrying name, description,
attributes and the ISO-8601 timestamps — each property `null` when the
corresponding field is absent. -/
theorem to_feature_shape (r : SpatialRecord) :
    (r.to_geojson).lookup "type" = some (.str "Feature") ∧
    (r.to_geojson).lookup "id" = some (.num r.id) ∧
    (r.to_geojson).lookup "geometry" = some (decode_geom r.geom) ∧
    ∃ props, (r.to_geojson).lookup "properties" = some (.obj props) ∧
      props.lookup "name" = some (.str r.name) ∧
      props.lookup "description" = some (option_str_json r.description) ∧
      props.lookup "attributes" = some (r.attributes.getD .null) ∧
      props.lookup "created_at" =
        some (option_str_json (r.created_at.map Timestamp.iso)) ∧
      props.lookup "updated_at" =
        some (option_str_json (r.updated_at.map Timestamp.iso)) ∧
      (∀ d, r.description = some d →
        props.lookup "description" = some (.str d)) ∧
      (r.description = none → props.lookup "description" = some .null) ∧
      (∀ a, r.attributes = some a → props.lookup "attributes" = some a) ∧
      (r.attributes = none → props.lookup "attributes" = some .null) ∧
      (∀ t, r.created_at = some t →
        props.lookup "created_at" = some (.str t.iso)) ∧
      (r.created_at = none → props.lookup "created_at" = some .null) ∧
      (∀ t, r.updated_at = some t →
        props.lookup "updated_at" = some (.str t.iso)) ∧
      (r.updated_at = none → props.lookup "updated_at" = some .null) := by
  refine ⟨rfl, rfl, rfl,
    [("name", .str r.name),
     ("description", option_str_json r.description),
     ("attributes", (r.attributes.getD .null)),
     ("created_at", option_str_json (r.created_at.map Timestamp.iso)),
     ("updated_at", option_str_json (r.updated_at.map Timestamp.iso))],
    rfl, rfl, rfl, rfl, rfl, rfl, ?_, ?_, ?_, ?_, ?_, ?_, ?_, ?_⟩
  · intro d hd
    rw [hd]
    rfl
  · intro hd
    rw [hd]
    rfl
  · intro a ha
    rw [ha]
    rfl
  · intro ha
    rw [ha]
    rfl
  · intro t ht
    rw [ht]
    rfl
  · intro ht
    rw [ht]
    rfl
  · intro t ht
    rw [ht]
    rfl
  · intro ht
    rw [ht]
    rfl

/-- Witness for C9 at a record with a description and attributes present
and at one with both absent. -/
theorem to_feature_shape_witness :
    ((sample_point_row.to_geojson).lookup "type" =
      some (.str "Feature")) ∧
    ((⟨2, "bare", none, none, .point 1 1, none, none⟩ :
        SpatialRecord).to_geojson).lookup "type" = some (.str "Feature") := by
  obtain ⟨h1, -⟩ := to_feature_shape sample_point_row
  obtain ⟨h2, -⟩ :=
    to_feature_shape ⟨2, "bare", none, none, .point 1 1, none, none⟩
  exact ⟨h1, h2⟩

theorem create_points_batch_error {fail : NewRecord → Bool}
    {now : Timestamp} {st : Store} {points : List PointCreate}
    {st' : Store} {e : Err}
    (h : create_points_batch fail now st points = (st', .error e)) :
    st' = st := by
  unfold create_points_batch at h
  rcases hval : validate_all PointCreate.validate points with e1 | pts
  · simp only [hval] at h
    injection h with h1 h2
    exact h1.symm
  · simp only [hval] at h
    rcases hloop : flush_points_loop fail now (Session.start st) pts with
      ⟨e2, sf⟩ | ⟨s, feats⟩
    · simp only [hloop] at h
      injection h with h1 h2
      rw [← h1]
      exact flush_points_loop_error hloop
    · simp only [hloop] at h
      injection h with h1 h2
      exact Except.noConfusion h2

theorem create_points_batch_ok {fail : NewRecord → Bool}
    {now : Timestamp} {st : Store} {points : List PointCreate}
    {st' : Store} {feats : List Json}
    (h : create_points_batch fail now st points = (st', .ok feats)) :
    st'.points = st.points ++ point_batch_rows now st.next_point_id points ∧
    st'.polygons = st.polygons := by
  unfold create_points_batch at h
  rcases hval : validate_all PointCreate.validate points with e1 | pts
  · simp only [hval] at h
    injection h with h1 h2
    exact Except.noConfusion h2
  · simp only [hval] at h
    rcases hloop : flush_points_loop fail now (Session.start st) pts with
      ⟨e2, sf⟩ | ⟨s, fs⟩
    · simp only [hloop] at h
      injection h with h1 h2
      exact Except.noConfusion h2
    · simp only [hloop] at h
      injection h with h1 h2
      obtain ⟨-, hpts, hpolys⟩ := flush_points_loop_ok hloop
      have hid : pts = points := validate_all_id
        (fun x y hxy => (point_create_validate_ok hxy).1) hval
      subst hid
      rw [← h1]
      exact ⟨hpts, hpolys⟩

theorem create_points_batch_total {fail : NewRecord → Bool}
    {now : Timestamp} {st : Store} {points : List PointCreate} {pts : List PointCreate}
    (hfail : ∀ n, fail n = false)
    (hval : validate_all PointCreate.validate points = .ok pts) :
    ∃ st' feats, create_points_batch fail now st points = (st', .ok feats) := by
  have hall : ∀ p ∈ pts, ∃ n, point_new_record p = .ok n := by
    intro p hp
    obtain ⟨x, -, hx⟩ := validate_all_mem hval p hp
    obtain ⟨hxy, n, hn⟩ := point_create_validate_ok hx
    exact ⟨n, hxy ▸ hn⟩
  obtain ⟨s', feats, hloop⟩ :=
    flush_points_loop_total now hfail pts (Session.start st) hall
  refine ⟨s'.commit, feats, ?_⟩
  unfold create_points_batch
  simp only [hval, hloop]

theorem create_polygons_batch_error {fail : NewRecord → Bool}
    {now : Timestamp} {st : Store} {polygons : List PolygonCreate}
    {st' : Store} {e : Err}
    (h : create_polygons_batch fail now st polygons = (st', .error e)) :
    st' = st := by
  unfold create_polygons_batch at h
  rcases hval : validate_all PolygonCreate.validate polygons with e1 | ps
  · simp only [hval] at h
    injection h with h1 h2
    exact h1.symm
  · simp only [hval] at h
    rcases hloop : flush_polygons_loop fail now (Session.start st) ps with
      ⟨e2, sf⟩ | ⟨s, feats⟩
    · simp only [hloop] at h
      injection h with h1 h2
      rw [← h1]
      exact flush_polygons_loop_error hloop
    · simp only [hloop] at h
      injection h with h1 h2
      exact Except.noConfusion h2

theorem create_polygons_batch_ok {fail : NewRecord → Bool}
    {now : Timestamp} {st : Store} {polygons ps : List PolygonCreate}
    {st' : Store} {feats : List Json}
    (hval : validate_all PolygonCreate.validate polygons = .ok ps)
    (h : create_polygons_batch fail now st polygons = (st', .ok feats)) :
    st'.polygons =
      st.polygons ++ polygon_batch_rows now st.next_polygon_id ps ∧
    st'.points = st.points := by
  unfold create_polygons_batch at h
  simp only [hval] at h
  rcases hloop : flush_polygons_loop fail now (Session.start st) ps with
    ⟨e2, sf⟩ | ⟨s, fs⟩
  · simp only [hloop] at h
    injection h with h1 h2
    exact Except.noConfusion h2
  · simp only [hloop] at h
    injection h with h1 h2
    obtain ⟨-, hpolys, hpts⟩ := flush_polygons_loop_ok hloop
    rw [← h1]
    exact ⟨hpolys, hpts⟩

theorem create_polygons_batch_total {fail : NewRecord → Bool}
    {now : Timestamp} {st : Store}
    {polygons ps : List PolygonCreate}
    (hfail : ∀ n, fail n = false)
    (hval : validate_all PolygonCreate.validate polygons = .ok ps) :
    ∃ st' feats,
      create_polygons_batch fail now st polygons = (st', .ok feats) := by
  have hall : ∀ p ∈ ps, ∃ n, polygon_new_record p = .ok n := by
    intro p hp
    obtain ⟨x, -, hx⟩ := validate_all_mem hval p hp
    obtain ⟨-, -, -, -, -, hn⟩ := polygon_create_validate_ok hx
    exact ⟨_, hn⟩
  obtain ⟨s', feats, hloop⟩ :=
    flush_polygons_loop_total now hfail ps (Session.start st) hall
  refine ⟨s'.commit, feats, ?_⟩
  unfold create_polygons_batch
  simp only [hval, hloop]

/-- **C1.** Batch create is all-or-nothing, for points and for polygons:
whenever the batch endpoint returns an error — a validation failure on any
element or a store-rejected INSERT — the store equals its state before the
call; when it returns success, every element of the batch is appended to
the table (with consecutive store-assigned ids), and a batch whose
elements all validate and whose every INSERT the store accepts does
succeed. -/
theorem batch_create_atomic (fail : NewRecord → Bool) (now : Timestamp)
    (st : Store) (points : List PointCreate)
    (polygons : List PolygonCreate) :
    (∀ st' e, create_points_batch fail now st points = (st', .error e) →
      st' = st) ∧
    (∀ st' feats, create_points_batch fail now st points =
        (st', .ok feats) →
      st'.points =
        st.points ++ point_batch_rows now st.next_point_id points) ∧
    ((∀ n, fail n = false) →
      (∃ pts, validate_all PointCreate.validate points = .ok pts) →
      ∃ st' feats,
        create_points_batch fail now st points = (st', .ok feats)) ∧
    (∀ st' e, create_polygons_batch fail now st polygons =
        (st', .error e) → st' = st) ∧
    (∀ st' feats ps,
      validate_all PolygonCreate.validate polygons = .ok ps →
      create_polygons_batch fail now st polygons = (st', .ok feats) →
      st'.polygons =
        st.polygons ++ polygon_batch_rows now st.next_polygon_id ps) ∧
    ((∀ n, fail n = false) →
      (∃ ps, validate_all PolygonCreate.validate polygons = .ok ps) →
      ∃ st' feats,
        create_polygons_batch fail now st polygons = (st', .ok feats)) := by
  refine ⟨?_, ?_, ?_, ?_, ?_, ?_⟩
  · exact fun st' e h => create_points_batch_error h
  · exact fun st' feats h => (create_points_batch_ok h).1
  · rintro hfail ⟨pts, hval⟩
    exact create_points_batch_total hfail hval
  · exact fun st' e h => create_polygons_batch_error h
  · exact fun st' feats ps hval h => (create_polygons_batch_ok hval h).1
  · rintro hfail ⟨ps, hval⟩
    exact create_polygons_batch_total hfail hval

/-- Witness for C1: a batch whose second INSERT the store rejects leaves
the store empty; a batch whose second element has `lon = 200` leaves the
store empty; a batch with no failure persists both rows. -/
theorem batch_create_atomic_witness :
    (create_points_batch fail_bad_name ts0 empty_store
      [⟨"a", none, none, [1, 1]⟩, ⟨"bad", none, none, [2, 2]⟩]).1 =
      empty_store ∧
    (create_points_batch no_fail ts0 empty_store
      [⟨"a", none, none, [1, 1]⟩, ⟨"b", none, none, [200, 2]⟩]).1 =
      empty_store ∧
    (∃ st' feats, create_points_batch no_fail ts0 empty_store
        [⟨"a", none, none, [1, 1]⟩, ⟨"b", none, none, [2, 2]⟩] =
      (st', .ok feats)) := by
  refine ⟨?_, ?_, ?_⟩
  · exact (batch_create_atomic fail_bad_name ts0 empty_store
      [⟨"a", none, none, [1, 1]⟩, ⟨"bad", none, none, [2, 2]⟩] []).1
      _ _ rfl
  · exact (batch_create_atomic no_fail ts0 empty_store
      [⟨"a", none, none, [1, 1]⟩, ⟨"b", none, none, [200, 2]⟩] []).1
      _ _ rfl
  · exact (batch_create_atomic no_fail ts0 empty_store
      [⟨"a", none, none, [1, 1]⟩, ⟨"b", none, none, [2, 2]⟩] []).2.2.1
      (fun _ => rfl) ⟨_, rfl⟩

theorem polygon_update_validate_cases {u u' : PolygonUpdate}
    (h : u.validate = .ok u') :
    (u.coordinates = none ∧ u' = u) ∨
    (∃ v w, u.coordinates = some v ∧
      validate_polygon_coordinates v = .ok w ∧
      u' = { u with coordinates := some w }) := by
  rcases hc : u.coordinates with _ | v
  · left
    rw [polygon_update_validate_none hc] at h
    injection h with h1
    exact ⟨rfl, h1.symm⟩
  · right
    unfold PolygonUpdate.validate validate_polygon_update_coordinates at h
    simp only [hc] at h
    rcases hv : validate_polygon_coordinates v with e | w
    · rw [hv] at h
      exact Except.noConfusion h
    · rw [hv] at h
      simp only [Except.map, Except.ok.injEq] at h
      exact ⟨v, w, rfl, hv, h.symm⟩

theorem polygon_batch_rows_ok {now : Timestamp} {ps : List PolygonCreate}
    (h : ∀ p ∈ ps, ring_ok p.coordinates ∧ polygon_new_record p =
      .ok ⟨p.name, p.description, p.attributes, .polygon p.coordinates⟩) :
    ∀ startId, ∀ r ∈ polygon_batch_rows now startId ps,
    ∀ ring, r.geom = .polygon ring → ring_ok ring := by
  induction ps with
  | nil =>
    intro startId r hr
    simp [polygon_batch_rows] at hr
  | cons p rest ih =>
    intro startId r hr ring hg
    obtain ⟨hro, hnr⟩ := h p (by simp)
    simp only [polygon_batch_rows, hnr] at hr
    rcases List.mem_cons.mp hr with hr | hr
    · subst hr
      simp only [mk_row] at hg
      cases hg
      exact hro
    · exact ih (fun q hq => h q (by simp [hq])) (startId + 1) r hr ring hg

theorem create_point_frame (fail : NewRecord → Bool) (now : Timestamp)
    (st : Store) (p : PointCreate) :
    (create_point fail now st p).1.polygons = st.polygons := by
  unfold create_point
  rcases hval : PointCreate.validate p with e | q
  · simp only [hval]
  · simp only [hval]
    rcases hn : point_new_record q with e | n
    · simp only [hn]
    · simp only [hn]
      rcases hflush : (Session.start st).flush_point fail now n with e | ⟨s, r⟩
      · simp only [hflush]
      · simp only [hflush]
        obtain ⟨-, -, hpend⟩ := flush_point_ok hflush
        show s.pending.polygons = st.polygons
        rw [hpend]
        rfl

theorem update_point_frame (now : Timestamp) (st : Store) (pid : Nat)
    (u : PointUpdate) :
    (update_point now st pid u).1.polygons = st.polygons := by
  unfold update_point
  rcases hval : PointUpdate.validate u with e | u'
  · simp only [hval]
  · simp only [hval]
    rcases hf : find_point st pid with _ | r
    · simp only [hf]
    · simp only [hf]

theorem delete_point_frame (st : Store) (pid : Nat) :
    (delete_point st pid).1.polygons = st.polygons := by
  unfold delete_point
  rcases hf : find_point st pid with _ | r
  · simp only [hf]
  · simp only [hf]

theorem create_points_batch_frame (fail : NewRecord → Bool)
    (now : Timestamp) (st : Store) (ps : List PointCreate) :
    (create_points_batch fail now st ps).1.polygons = st.polygons := by
  rcases h : create_points_batch fail now st ps with ⟨st', res⟩
  rcases res with e | feats
  · rw [show st' = st from create_points_batch_error h]
  · exact (create_points_batch_ok h).2

theorem create_polygon_preserves {fail : NewRecord → Bool}
    {now : Timestamp} {st : Store} {pg : PolygonCreate}
    (hst : polygons_ok st) :
    polygons_ok (create_polygon fail now st pg).1 := by
  unfold create_polygon
  rcases hval : PolygonCreate.validate pg with e | q
  · simp only [hval]
    exact hst
  · simp only [hval]
    obtain ⟨-, -, -, -, hro, hnr⟩ := polygon_create_validate_ok hval
    simp only [hnr]
    rcases hflush : (Session.start st).flush_polygon fail now
      ⟨q.name, q.description, q.attributes, .polygon q.coordinates⟩ with
      e | ⟨s, r⟩
    · simp only [hflush]
      exact hst
    · simp only [hflush]
      obtain ⟨-, hrow, hpend⟩ := flush_polygon_ok hflush
      intro x hx ring hg
      have hx' : x ∈ st.polygons ++ [r] := by
        have hcp : s.commit.polygons = st.polygons ++ [r] := by
          show s.pending.polygons = _
          rw [hpend]
          rfl
        rwa [hcp] at hx
      rcases List.mem_append.mp hx' with hmem | hmem
      · exact hst x hmem ring hg
      · rw [List.mem_singleton] at hmem
        subst hmem
        rw [hrow] at hg
        simp only [mk_row] at hg
        cases hg
        exact hro

theorem create_polygons_batch_preserves {fail : NewRecord → Bool}
    {now : Timestamp} {st : Store} {pgs : List PolygonCreate}
    (hst : polygons_ok st) :
    polygons_ok (create_polygons_batch fail now st pgs).1 := by
  rcases h : create_polygons_batch fail now st pgs with ⟨st', res⟩
  rcases res with e | feats
  · rw [show st' = st from create_polygons_batch_error h]
    exact hst
  · show polygons_ok st'
    unfold create_polygons_batch at h
    rcases hval : validate_all PolygonCreate.validate pgs with e1 | ps
    · simp only [hval] at h
      injection h with h1 h2
      exact Except.noConfusion h2
    · obtain ⟨hpolys, -⟩ := create_polygons_batch_ok hval h
      intro x hx ring hg
      rw [hpolys] at hx
      rcases List.mem_append.mp hx with hmem | hmem
      · exact hst x hmem ring hg
      · have hall : ∀ p ∈ ps, ring_ok p.coordinates ∧
            polygon_new_record p = .ok ⟨p.name, p.description, p.attributes,
              .polygon p.coordinates⟩ := by
          intro p hp
          obtain ⟨x', -, hx'⟩ := validate_all_mem hval p hp
          obtain ⟨-, -, -, -, hro, hnr⟩ := polygon_create_validate_ok hx'
          exact ⟨hro, hnr⟩
        exact polygon_batch_rows_ok hall st.next_polygon_id x hmem ring hg

theorem update_polygon_preserves {now : Timestamp} {st : Store}
    {pid : Nat} {ug : PolygonUpdate} (hst : polygons_ok st) :
    polygons_ok (update_polygon now st pid ug).1 := by
  unfold update_polygon
  rcases hval : PolygonUpdate.validate ug with e | u'
  · simp only [hval]
    exact hst
  · simp only [hval]
    rcases hf : find_polygon st pid with _ | r
    · simp only [hf]
      exact hst
    · simp only [hf]
      have hrmem : r ∈ st.polygons := List.mem_of_find?_eq_some hf
      rcases happ : apply_polygon_update now u' r with e | r'
      · simp only [happ]
        exact hst
      · simp only [happ]
        have hr'geom : ∀ ring, r'.geom = .polygon ring → ring_ok ring := by
          intro ring hg
          unfold apply_polygon_update at happ
          rcases polygon_update_validate_cases hval with
            ⟨hcn, hueq⟩ | ⟨v, w, hcv, hvw, hueq⟩
          · rw [hueq] at happ
            have hgeq : polygon_update_geom ug.coordinates r.geom =
                .ok r.geom := by
              unfold polygon_update_geom
              simp only [hcn]
            rw [hgeq] at happ
            simp only [Except.map, Except.ok.injEq] at happ
            subst happ
            exact hst r hrmem ring hg
          · rw [hueq] at happ
            obtain ⟨hw, hlen, hall⟩ := validate_polygon_coordinates_ok hvw
            have hallw : w.all pair_ok = true := hw ▸ close_ring_all hall
            have hwlen : 3 ≤ w.length := hw ▸ le_trans hlen close_ring_length
            have hwne : w ≠ [] := by
              intro hnil
              rw [hnil] at hwlen
              simp at hwlen
            have hhl : w.head? = w.getLast? := by
              have hne : v ≠ [] := by
                intro hnil
                rw [hnil] at hlen
                simp at hlen
              rw [hw]
              exact close_ring_head_last hne
            have hring : polygon_wkt_ring w = .ok w :=
              polygon_wkt_ring_of_arity hallw
            have hgeom : polygon_update_geom
                ({ ug with coordinates := some w } :
                  PolygonUpdate).coordinates r.geom = .ok (.polygon w) := by
              unfold polygon_update_geom
              match w, hwne with
              | x :: xs, _ => simp only [hring, Except.map]
            rw [hgeom] at happ
            simp only [Except.map, Except.ok.injEq] at happ
            subst happ
            simp only at hg
            cases hg
            exact ⟨hwlen, hhl, hallw⟩
        intro x hx ring hg
        rcases List.mem_map.mp hx with ⟨y, hy, hxy⟩
        by_cases hyid : (y.id == pid) = true
        · rw [if_pos hyid] at hxy
          subst hxy
          exact hr'geom ring hg
        · rw [if_neg hyid] at hxy
          subst hxy
          exact hst y hy ring hg

theorem delete_polygon_preserves {st : Store} {pid : Nat}
    (hst : polygons_ok st) :
    polygons_ok (delete_polygon st pid).1 := by
  unfold delete_polygon
  rcases hf : find_polygon st pid with _ | r
  · simp only [hf]
    exact hst
  · simp only [hf]
    intro x hx ring hg
    exact hst x (List.mem_of_mem_filter hx) ring hg

/-- Counterexample to C10 as stated: the already-closed 3-pair ring
`[[0,0],[1,1],[0,0]]` passes the create validator unchanged (first pair
already equals last pair, so nothing is appended), and create then writes
a polygon whose ring has only 3 coordinate pairs — not at least 4. -/
theorem closed_ring_three_pairs_cex :
    (create_polygon no_fail ts0 empty_store
      ⟨"tri", none, none, [[0,0],[1,1],[0,0]]⟩).1.polygons =
      [⟨1, "tri", none, none, .polygon [[0,0],[1,1],[0,0]],
        some ts0, some ts0⟩] ∧
    ¬ 4 ≤ ([[0,0],[1,1],[0,0]] : List (List ℚ)).length :=
  ⟨rfl, by decide⟩

/-- **C10 (amended).** Closed-ring invariant with the bound the code
actually enforces: every polygon geometry written to the store — by
create, batch create, or update-with-new-coordinates — carries a ring of
at least 3 (not 4) coordinate pairs whose first and last pairs are equal
and whose every pair is an in-bounds 2-element `[lon, lat]`; every
mutating operation (polygon and point alike) preserves this invariant for
all stored polygons. -/
theorem stored_rings_closed_invariant (fail : NewRecord → Bool)
    (now : Timestamp) (st : Store) (pg : PolygonCreate)
    (pgs : List PolygonCreate) (pid pid2 : Nat) (ug : PolygonUpdate)
    (p : PointCreate) (ps : List PointCreate) (u : PointUpdate)
    (hst : polygons_ok st) :
    polygons_ok (create_polygon fail now st pg).1 ∧
    polygons_ok (create_polygons_batch fail now st pgs).1 ∧
    polygons_ok (update_polygon now st pid ug).1 ∧
    polygons_ok (delete_polygon st pid).1 ∧
    polygons_ok (create_point fail now st p).1 ∧
    polygons_ok (create_points_batch fail now st ps).1 ∧
    polygons_ok (update_point now st pid2 u).1 ∧
    polygons_ok (delete_point st pid2).1 := by
  refine ⟨create_polygon_preserves hst, create_polygons_batch_preserves hst,
    update_polygon_preserves hst, delete_polygon_preserves hst,
    ?_, ?_, ?_, ?_⟩
  · intro x hx ring hg
    rw [create_point_frame fail now st p] at hx
    exact hst x hx ring hg
  · intro x hx ring hg
    rw [create_points_batch_frame fail now st ps] at hx
    exact hst x hx ring hg
  · intro x hx ring hg
    rw [update_point_frame now st pid2 u] at hx
    exact hst x hx ring hg
  · intro x hx ring hg
    rw [delete_point_frame st pid2] at hx
    exact hst x hx ring hg

/-- Witness for the amended C10: the empty store satisfies the invariant
and creating an (auto-closed) triangle preserves it. -/
theorem stored_rings_closed_invariant_witness :
    polygons_ok empty_store ∧
    polygons_ok (create_polygon no_fail ts0 empty_store
      ⟨"tri", none, none, [[0,0],[0,1],[1,0]]⟩).1 := by
  have hempty : polygons_ok empty_store := by
    intro r hr
    simp [empty_store] at hr
  exact ⟨hempty, (stored_rings_closed_invariant no_fail ts0 empty_store
    ⟨"tri", none, none, [[0,0],[0,1],[1,0]]⟩ [] 1 1
    ⟨none, none, none, none⟩ ⟨"p", none, none, [0, 0]⟩ []
    ⟨none, none, none, none⟩ hempty).1⟩

/-- Counterexample to C6 as stated: `lon = 200` is outside [-180, 180],
yet `find_polygons_containing_point` does not fail with a
`ValidationError` — it queries the store with the raw out-of-range point
and returns the polygons the store's predicate reports. -/
theorem contains_point_no_validation_cex :
    ¬ lonOK 200 ∧
    find_polygons_containing_point (fun _ _ => true) sample_store 200 0 =
      .ok [sample_polygon_row.to_geojson] := by
  constructor
  · intro h
    have h2 := h.2
    norm_num at h2
  · rfl

/-- **C6 (amended).** `find_polygons_containing_point` performs no
coordinate validation at all: for every lon/lat — in range or not — it
encodes the raw query values directly into `POINT(lon lat)` and returns
exactly the stored polygons whose geometry contains that point according
to the store's `ST_Contains` predicate; it never returns an error of any
kind. -/
theorem contains_point_queries_raw (st_contains : Geom → Geom → Bool)
    (st : Store) (lon lat : ℚ) :
    find_polygons_containing_point st_contains st lon lat =
      .ok ((st.polygons.filter fun p =>
        st_contains p.geom (.point lon lat)).map SpatialRecord.to_geojson) :=
  rfl

/-- **C7.** The points router declares exactly the six CRUD routes and no
radius-search route — no declared path mentions "radius" — even though
`ST_DWithin` is imported at the top of `routers/points.py`; the
`points_within_radius` operation the spec describes does not exist in the
code. -/
theorem no_radius_endpoint :
    "ST_DWithin" ∈ points_router_imported_functions ∧
    points_router_routes.length = 6 ∧
    ∀ route ∈ points_router_routes,
      ¬ ("radius".toList <:+: route.2.toList) := by
  refine ⟨by decide, rfl, by decide⟩

end TalkingLands
